import Mathlib

/-!
Shallow embedding of the trading backend's core services
(`app/services/order_service.py`, `portfolio_service.py`,
`instrument_service.py`, `trade_service.py`, `execution_engine.py`)
and of the data model (`app/models/*.py`).

Prices and monetary amounts are modelled as exact rationals (`ℚ`),
matching the source's use of Python `Decimal` fixed-point arithmetic;
quantities are integers (`db.Integer` columns).  Database state is a
record of the four tables; SQLAlchemy's mutate-in-place/commit pattern
becomes explicit state passing, and raised business exceptions become
`Except Err`.
-/

namespace Trading

/-- `OrderType` enum from `app/models/order.py`. -/
inductive OrderType where
  | BUY
  | SELL
deriving DecidableEq, Repr

/-- `OrderStyle` enum from `app/models/order.py`. -/
inductive OrderStyle where
  | MARKET
  | LIMIT
deriving DecidableEq, Repr

/-- `OrderStatus` enum from `app/models/order.py`. -/
inductive OrderStatus where
  | NEW
  | PLACED
  | EXECUTED
  | CANCELLED
deriving DecidableEq, Repr

/-- The `.value` string of an `OrderStatus` member, used in error messages. -/
def OrderStatus.value : OrderStatus → String
  | .NEW => "NEW"
  | .PLACED => "PLACED"
  | .EXECUTED => "EXECUTED"
  | .CANCELLED => "CANCELLED"

/-- `Instrument` row (`app/models/instrument.py`); fields the core reads. -/
structure Instrument where
  symbol : String
  lastTradedPrice : ℚ
  isActive : Bool
deriving DecidableEq, Repr

/-- `Order` row (`app/models/order.py`). -/
structure Order where
  id : Nat
  userId : String
  symbol : String
  orderType : OrderType
  orderStyle : OrderStyle
  quantity : ℤ
  price : Option ℚ
  status : OrderStatus
deriving DecidableEq, Repr

/-- `Trade` row (`app/models/trade.py`). -/
structure Trade where
  id : Nat
  orderId : Nat
  userId : String
  symbol : String
  tradeType : OrderType
  quantity : ℤ
  executedPrice : ℚ
  totalValue : ℚ
deriving DecidableEq, Repr

/-- `Portfolio` row (`app/models/portfolio.py`): one holding per
(user, symbol), unique constraint `unique_user_symbol`. -/
structure Portfolio where
  userId : String
  symbol : String
  quantity : ℤ
  averagePrice : ℚ
  totalInvested : ℚ
deriving DecidableEq, Repr

/-- The persistent store: the four tables plus fresh-id counters for the
autoincrement primary keys. -/
structure DB where
  instruments : List Instrument
  orders : List Order
  trades : List Trade
  portfolio : List Portfolio
  nextOrderId : Nat
  nextTradeId : Nat
deriving DecidableEq, Repr

/-- Business exceptions from `app/exceptions/custom_exceptions.py`,
with the structured payload each carries. -/
inductive Err where
  | invalidOrder (message : String)
  | insufficientHoldings (symbol : String) (available : ℤ) (requested : ℤ)
  | instrumentNotFound (symbol : String)
  | orderNotFound (orderId : Nat)
deriving DecidableEq, Repr

/-- Decidable equality of `Except` results, for evaluating the operations
on concrete inputs. -/
instance {ε α : Type} [DecidableEq ε] [DecidableEq α] : DecidableEq (Except ε α) :=
  fun a b =>
    match a, b with
    | .ok x, .ok y =>
      if h : x = y then .isTrue (by rw [h]) else .isFalse (by simp [h])
    | .error x, .error y =>
      if h : x = y then .isTrue (by rw [h]) else .isFalse (by simp [h])
    | .ok _, .error _ => .isFalse (by simp)
    | .error _, .ok _ => .isFalse (by simp)

/-- Python's `str.upper()` on the symbol strings handled here (basic latin
letters), written structurally over the character list so that it
evaluates on literals. -/
def strUpper (s : String) : String := ⟨s.data.map Char.toUpper⟩

/-- `InstrumentService.get_instrument_by_symbol`: first active instrument
whose symbol equals the upper-cased input, else `InstrumentNotFoundException`. -/
def getInstrumentBySymbol (db : DB) (symbol : String) : Except Err Instrument :=
  match db.instruments.find? (fun i => i.symbol == strUpper symbol && i.isActive) with
  | some instrument => .ok instrument
  | none => .error (.instrumentNotFound symbol)

/-- `PortfolioService.get_user_holding`: first portfolio row filtered by
(user_id, symbol), with the symbol used verbatim. -/
def getUserHolding (db : DB) (userId symbol : String) : Option Portfolio :=
  db.portfolio.find? (fun h => h.userId == userId && h.symbol == symbol)

/-- Python's `price is None or price <= 0` test on the LIMIT price. -/
def limitPriceBad : Option ℚ → Bool
  | none => true
  | some p => decide (p ≤ 0)

/-- `OrderService.validate_order`: quantity check, LIMIT-price check,
instrument resolution, then the SELL sufficient-holdings check, in the
source's order.  Pure: the Python body performs no session mutation. -/
def validate_order (db : DB) (symbol : String) (orderType : OrderType)
    (orderStyle : OrderStyle) (quantity : ℤ) (price : Option ℚ)
    (userId : String) : Except Err Instrument :=
  if quantity ≤ 0 then
    .error (.invalidOrder "Quantity must be greater than 0")
  else if orderStyle = OrderStyle.LIMIT ∧ limitPriceBad price then
    .error (.invalidOrder "LIMIT orders must have a valid price")
  else
    match getInstrumentBySymbol db symbol with
    | .error e => .error e
    | .ok instrument =>
      if orderType = OrderType.SELL then
        match getUserHolding db userId symbol with
        | some portfolio =>
          if portfolio.quantity < quantity then
            .error (.insufficientHoldings symbol portfolio.quantity quantity)
          else
            .ok instrument
        | none => .error (.insufficientHoldings symbol 0 quantity)
      else
        .ok instrument

/-- `OrderService.create_order`: validate first, then persist a NEW order.
`price=Decimal(str(price)) if price else None` stores `none` for a falsy
(absent or zero) price. -/
def create_order (db : DB) (userId symbol : String) (orderType : OrderType)
    (orderStyle : OrderStyle) (quantity : ℤ) (price : Option ℚ) :
    Except Err (DB × Order) :=
  match validate_order db symbol orderType orderStyle quantity price userId with
  | .error e => .error e
  | .ok instrument =>
    let order : Order :=
      { id := db.nextOrderId
        userId := userId
        symbol := instrument.symbol
        orderType := orderType
        orderStyle := orderStyle
        quantity := quantity
        price := match price with
          | some p => if p = 0 then none else some p
          | none => none
        status := OrderStatus.NEW }
    .ok ({ db with orders := db.orders ++ [order],
                   nextOrderId := db.nextOrderId + 1 }, order)

/-- `OrderService.get_order_by_id`: primary-key lookup,
`OrderNotFoundException` when absent. -/
def get_order_by_id (db : DB) (orderId : Nat) : Except Err Order :=
  match db.orders.find? (fun o => o.id == orderId) with
  | some order => .ok order
  | none => .error (.orderNotFound orderId)

/-- Writing a status onto the order row with the given primary key
(the ORM mutates the identified row in place; ids are unique). -/
def setOrderStatus (db : DB) (orderId : Nat) (st : OrderStatus) : DB :=
  { db with orders := db.orders.map fun o =>
      if o.id == orderId then { o with status := st } else o }

/-- `OrderService.update_order_status`: fetch, set status unconditionally,
commit, return the updated order. -/
def update_order_status (db : DB) (orderId : Nat) (newStatus : OrderStatus) :
    Except Err (DB × Order) :=
  match get_order_by_id db orderId with
  | .error e => .error e
  | .ok order =>
    .ok (setOrderStatus db orderId newStatus, { order with status := newStatus })

/-- `OrderService.cancel_order`: fetch; reject EXECUTED/CANCELLED with
`InvalidOrderException`; otherwise set CANCELLED and return the order. -/
def cancel_order (db : DB) (orderId : Nat) : Except Err (DB × Order) :=
  match get_order_by_id db orderId with
  | .error e => .error e
  | .ok order =>
    if order.status = OrderStatus.EXECUTED ∨ order.status = OrderStatus.CANCELLED then
      .error (.invalidOrder ("Cannot cancel order in " ++ order.status.value ++ " status"))
    else
      .ok (setOrderStatus db orderId OrderStatus.CANCELLED,
           { order with status := OrderStatus.CANCELLED })

/-- `TradeService.create_trade`: `total_value = executed_price * quantity`
(exact), append an immutable row with a fresh id. -/
def create_trade (db : DB) (order : Order) (executedPrice : ℚ) : DB × Trade :=
  let totalValue := executedPrice * (order.quantity : ℚ)
  let trade : Trade :=
    { id := db.nextTradeId
      orderId := order.id
      userId := order.userId
      symbol := order.symbol
      tradeType := order.orderType
      quantity := order.quantity
      executedPrice := executedPrice
      totalValue := totalValue }
  ({ db with trades := db.trades ++ [trade], nextTradeId := db.nextTradeId + 1 }, trade)

/-- Replace the first (user, symbol) row — the ORM mutates the row
`get_user_holding` found, in place. -/
def updateFirstHolding : List Portfolio → String → String → Portfolio → List Portfolio
  | [], _, _, _ => []
  | h :: t, u, s, h' =>
    if h.userId == u && h.symbol == s then h' :: t
    else h :: updateFirstHolding t u s h'

/-- Delete the first (user, symbol) row — `db.session.delete(holding)`. -/
def removeFirstHolding : List Portfolio → String → String → List Portfolio
  | [], _, _ => []
  | h :: t, u, s =>
    if h.userId == u && h.symbol == s then t
    else h :: removeFirstHolding t u s

/-- `PortfolioService.update_portfolio_after_trade`.  BUY with an existing
holding recomputes the weighted average; BUY with none creates the row;
SELL with an existing holding decrements (deleting the row at zero);
SELL with none falls through the `if holding:` guard and changes nothing,
returning `None`.  (In ℚ the division when `newQuantity = 0` yields `0`
where Python `Decimal` would raise; every caller reaches it with positive
quantities.)  Returns the new store and the returned `holding`. -/
def update_portfolio_after_trade (db : DB) (trade : Trade) : DB × Option Portfolio :=
  match getUserHolding db trade.userId trade.symbol with
  | some holding =>
    match trade.tradeType with
    | .BUY =>
      let oldValue := holding.averagePrice * (holding.quantity : ℚ)
      let newValue := trade.executedPrice * (trade.quantity : ℚ)
      let newQuantity := holding.quantity + trade.quantity
      let newAveragePrice := (oldValue + newValue) / (newQuantity : ℚ)
      let holding' : Portfolio :=
        { holding with
            averagePrice := newAveragePrice
            quantity := newQuantity
            totalInvested := newAveragePrice * (newQuantity : ℚ) }
      ({ db with portfolio :=
           updateFirstHolding db.portfolio trade.userId trade.symbol holding' },
       some holding')
    | .SELL =>
      let newQuantity := holding.quantity - trade.quantity
      if newQuantity = 0 then
        ({ db with portfolio :=
             removeFirstHolding db.portfolio trade.userId trade.symbol },
         some { holding with quantity := newQuantity })
      else
        let holding' : Portfolio :=
          { holding with
              quantity := newQuantity
              totalInvested := holding.averagePrice * (newQuantity : ℚ) }
        ({ db with portfolio :=
             updateFirstHolding db.portfolio trade.userId trade.symbol holding' },
         some holding')
  | none =>
    match trade.tradeType with
    | .BUY =>
      let holding : Portfolio :=
        { userId := trade.userId
          symbol := trade.symbol
          quantity := trade.quantity
          averagePrice := trade.executedPrice
          totalInvested := trade.totalValue }
      ({ db with portfolio := db.portfolio ++ [holding] }, some holding)
    | .SELL => (db, none)

/-- Result of one `execute_order` run: final store, the created trade, and
the order-status writes committed, in sequence. -/
structure ExecResult where
  db : DB
  trade : Trade
  statusWrites : List OrderStatus
deriving DecidableEq, Repr

/-- `OrderExecutionEngine.execute_order`: resolve the instrument (aborting
on failure before any mutation), pick the fill price (MARKET → last traded
price, LIMIT → the order's own price; a LIMIT order that reaches execution
always carries a price after validation, so `.getD 0` covers an unreachable
case), commit PLACED, create the trade, update the portfolio, commit
EXECUTED. -/
def execute_order (db : DB) (order : Order) : Except Err ExecResult :=
  match getInstrumentBySymbol db order.symbol with
  | .error e => .error e
  | .ok instrument =>
    let executionPrice :=
      if order.orderStyle = OrderStyle.MARKET then instrument.lastTradedPrice
      else order.price.getD 0
    let db1 := setOrderStatus db order.id OrderStatus.PLACED
    let tr := create_trade db1 order executionPrice
    let db3 := (update_portfolio_after_trade tr.1 tr.2).1
    let db4 := setOrderStatus db3 order.id OrderStatus.EXECUTED
    .ok { db := db4, trade := tr.2,
          statusWrites := [OrderStatus.PLACED, OrderStatus.EXECUTED] }

/-! ### State-preservation lemmas for the individual operations -/

/-- `setOrderStatus` touches only the orders table. -/
theorem setOrderStatus_fields (db : DB) (orderId : Nat) (st : OrderStatus) :
    (setOrderStatus db orderId st).instruments = db.instruments
    ∧ (setOrderStatus db orderId st).trades = db.trades
    ∧ (setOrderStatus db orderId st).portfolio = db.portfolio := by
  exact ⟨rfl, rfl, rfl⟩

/-- `create_trade` appends exactly one trade and touches nothing else. -/
theorem create_trade_fields (db : DB) (order : Order) (p : ℚ) :
    (create_trade db order p).1.instruments = db.instruments
    ∧ (create_trade db order p).1.orders = db.orders
    ∧ (create_trade db order p).1.portfolio = db.portfolio
    ∧ (create_trade db order p).1.trades = db.trades ++ [(create_trade db order p).2] := by
  exact ⟨rfl, rfl, rfl, rfl⟩

/-- `update_portfolio_after_trade` touches only the portfolio table. -/
theorem update_portfolio_fields (db : DB) (t : Trade) :
    (update_portfolio_after_trade db t).1.instruments = db.instruments
    ∧ (update_portfolio_after_trade db t).1.orders = db.orders
    ∧ (update_portfolio_after_trade db t).1.trades = db.trades := by
  cases hf : getUserHolding db t.userId t.symbol with
  | none =>
    cases ht : t.tradeType <;>
      simp [update_portfolio_after_trade, hf, ht]
  | some holding =>
    cases ht : t.tradeType with
    | BUY => simp [update_portfolio_after_trade, hf, ht]
    | SELL =>
      simp only [update_portfolio_after_trade, hf, ht]
      split <;> simp

/-- The portfolio produced by `update_portfolio_after_trade` depends only on
the input portfolio (and the trade). -/
theorem update_portfolio_portfolio_congr (db db' : DB) (t : Trade)
    (h : db.portfolio = db'.portfolio) :
    (update_portfolio_after_trade db t).1.portfolio =
      (update_portfolio_after_trade db' t).1.portfolio := by
  have hg : getUserHolding db t.userId t.symbol = getUserHolding db' t.userId t.symbol := by
    unfold getUserHolding
    rw [h]
  cases hf : getUserHolding db' t.userId t.symbol with
  | none =>
    rw [hf] at hg
    cases ht : t.tradeType <;>
      simp [update_portfolio_after_trade, hf, hg, ht, h]
  | some holding =>
    rw [hf] at hg
    cases ht : t.tradeType with
    | BUY => simp [update_portfolio_after_trade, hf, hg, ht, h]
    | SELL =>
      simp only [update_portfolio_after_trade, hf, hg, ht]
      split <;> simp [h]

/-! ### List lemmas for the first-match read/update/delete pattern -/

/-- Updating the first match in `front ++ h :: back`, where `front` has no
match and `h` matches, replaces `h`. -/
theorem updateFirstHolding_append_cons (front back : List Portfolio)
    (u s : String) (h h' : Portfolio)
    (hf : ∀ x ∈ front, (x.userId == u && x.symbol == s) = false)
    (hh : (h.userId == u && h.symbol == s) = true) :
    updateFirstHolding (front ++ h :: back) u s h' = front ++ h' :: back := by
  induction front with
  | nil => simp [updateFirstHolding, hh]
  | cons a t ih =>
    have ha := hf a (List.mem_cons_self a t)
    simp only [List.cons_append, updateFirstHolding, ha, Bool.false_eq_true, if_false,
      List.cons.injEq, true_and]
    exact ih fun x hx => hf x (List.mem_cons_of_mem a hx)

/-- Removing the first match in `front ++ h :: back`, where `front` has no
match and `h` matches, removes `h`. -/
theorem removeFirstHolding_append_cons (front back : List Portfolio)
    (u s : String) (h : Portfolio)
    (hf : ∀ x ∈ front, (x.userId == u && x.symbol == s) = false)
    (hh : (h.userId == u && h.symbol == s) = true) :
    removeFirstHolding (front ++ h :: back) u s = front ++ back := by
  induction front with
  | nil => simp [removeFirstHolding, hh]
  | cons a t ih =>
    have ha := hf a (List.mem_cons_self a t)
    simp only [List.cons_append, removeFirstHolding, ha, Bool.false_eq_true, if_false,
      List.cons.injEq, true_and]
    exact ih fun x hx => hf x (List.mem_cons_of_mem a hx)

/-- After updating the first (u, s) match with a row that still matches,
the first (u, s) match is the new row. -/
theorem find?_updateFirstHolding (l : List Portfolio) (u s : String)
    (h h' : Portfolio)
    (hl : l.find? (fun x => x.userId == u && x.symbol == s) = some h)
    (hh' : (h'.userId == u && h'.symbol == s) = true) :
    (updateFirstHolding l u s h').find? (fun x => x.userId == u && x.symbol == s)
      = some h' := by
  induction l with
  | nil => simp [List.find?] at hl
  | cons a t ih =>
    by_cases ha : (a.userId == u && a.symbol == s) = true
    · simp [updateFirstHolding, ha, List.find?_cons, hh']
    · rw [Bool.not_eq_true] at ha
      rw [List.find?_cons, ha] at hl
      simp only [updateFirstHolding, ha, Bool.false_eq_true, if_false]
      rw [List.find?_cons, ha]
      exact ih hl

/-- Unfolding equation for `cancel_order` when the order lookup fails. -/
theorem cancel_order_eq_of_error (db : DB) (orderId : Nat) (e : Err)
    (hg : get_order_by_id db orderId = Except.error e) :
    cancel_order db orderId = Except.error e := by
  unfold cancel_order
  rw [hg]

/-- Unfolding equation for `cancel_order` when the order lookup succeeds. -/
theorem cancel_order_eq_of_ok (db : DB) (orderId : Nat) (o : Order)
    (hg : get_order_by_id db orderId = Except.ok o) :
    cancel_order db orderId =
      if o.status = OrderStatus.EXECUTED ∨ o.status = OrderStatus.CANCELLED then
        Except.error (Err.invalidOrder
          ("Cannot cancel order in " ++ o.status.value ++ " status"))
      else
        Except.ok (setOrderStatus db orderId OrderStatus.CANCELLED,
                   { o with status := OrderStatus.CANCELLED }) := by
  unfold cancel_order
  rw [hg]

/-- Unfolding equation for `update_order_status` when the lookup fails. -/
theorem update_order_status_eq_of_error (db : DB) (orderId : Nat)
    (st : OrderStatus) (e : Err)
    (hg : get_order_by_id db orderId = Except.error e) :
    update_order_status db orderId st = Except.error e := by
  unfold update_order_status
  rw [hg]

/-- Unfolding equation for `update_order_status` when the lookup succeeds. -/
theorem update_order_status_eq_of_ok (db : DB) (orderId : Nat)
    (st : OrderStatus) (o : Order)
    (hg : get_order_by_id db orderId = Except.ok o) :
    update_order_status db orderId st =
      Except.ok (setOrderStatus db orderId st, { o with status := st }) := by
  unfold update_order_status
  rw [hg]

/-! ### Concrete fixtures -/

/-- A SELL trade for a (user, symbol) pair that holds nothing. -/
def tradeC4 : Trade :=
  { id := 1, orderId := 1, userId := "u1", symbol := "AAPL",
    tradeType := OrderType.SELL, quantity := 5, executedPrice := 150,
    totalValue := 750 }

/-- A store with one active instrument and an empty portfolio. -/
def dbC4 : DB :=
  { instruments := [{ symbol := "AAPL", lastTradedPrice := 150, isActive := true }]
    orders := [], trades := [], portfolio := []
    nextOrderId := 1, nextTradeId := 1 }

/-- Claim C4 counterexample: applying a SELL trade with no matching holding
does not fail with any internal-consistency error — the function returns
normally (its type has no failure channel at all), with the store unchanged
and no holding: the `if holding:` guard silently skips the SELL branch.
The claim's "fails with an internal-consistency error" is false of the code. -/
theorem C4_counterexample :
    update_portfolio_after_trade dbC4 tradeC4 = (dbC4, none) := rfl

/-- Claim C4 (amended): applying a SELL trade to the ledger when no holding
row exists for that (user, symbol) silently does nothing — it returns no
holding and leaves the whole store (in particular the ledger) unchanged; it
neither raises an error nor creates a negative position. -/
theorem C4_sell_without_holding_is_silent_noop (db : DB) (t : Trade)
    (ht : t.tradeType = OrderType.SELL)
    (hnone : getUserHolding db t.userId t.symbol = none) :
    update_portfolio_after_trade db t = (db, none) := by
  simp [update_portfolio_after_trade, hnone, ht]

/-- Witness for the amended C4 at a concrete store and trade. -/
theorem C4_witness : update_portfolio_after_trade dbC4 tradeC4 = (dbC4, none) :=
  C4_sell_without_holding_is_silent_noop dbC4 tradeC4 rfl rfl

/-- An order already in the terminal EXECUTED status. -/
def orderC5 : Order :=
  { id := 1, userId := "u1", symbol := "AAPL", orderType := OrderType.BUY,
    orderStyle := OrderStyle.MARKET, quantity := 10, price := none,
    status := OrderStatus.EXECUTED }

/-- A store containing only `orderC5`. -/
def dbC5 : DB :=
  { instruments := [], orders := [orderC5], trades := [], portfolio := []
    nextOrderId := 2, nextTradeId := 1 }

/-- Claim C5 counterexample: `update_order_status` checks nothing, so it
moves an EXECUTED order back to NEW — EXECUTED is not terminal under the
status-update operation, refuting the claimed transition invariant. -/
theorem C5_counterexample :
    (get_order_by_id dbC5 1).map Order.status = Except.ok OrderStatus.EXECUTED
    ∧ (update_order_status dbC5 1 OrderStatus.NEW).map
        (fun r => (get_order_by_id r.1 1).map Order.status)
      = Except.ok (Except.ok OrderStatus.NEW) := ⟨rfl, rfl⟩

/-- Claim C5 (amended): of the status-mutating operations only cancellation
enforces the transition invariant — a successful `cancel_order` starts from
a non-terminal (NEW or PLACED) order and ends at CANCELLED — while
`update_order_status` writes any requested status unconditionally onto any
existing order. -/
theorem C5_only_cancel_preserves_transitions (db : DB) (orderId : Nat) :
    (∀ db' o', cancel_order db orderId = Except.ok (db', o') →
        o'.status = OrderStatus.CANCELLED
        ∧ ∃ o, get_order_by_id db orderId = Except.ok o
            ∧ o' = { o with status := OrderStatus.CANCELLED }
            ∧ ¬(o.status = OrderStatus.EXECUTED ∨ o.status = OrderStatus.CANCELLED))
    ∧ (∀ newStatus db' o',
        update_order_status db orderId newStatus = Except.ok (db', o') →
        o'.status = newStatus) := by
  constructor
  · intro db' o' hok
    cases hg : get_order_by_id db orderId with
    | error e =>
      rw [cancel_order_eq_of_error db orderId e hg] at hok
      exact absurd hok (by simp)
    | ok o =>
      rw [cancel_order_eq_of_ok db orderId o hg] at hok
      by_cases hs : o.status = OrderStatus.EXECUTED ∨ o.status = OrderStatus.CANCELLED
      · rw [if_pos hs] at hok
        exact absurd hok (by simp)
      · rw [if_neg hs] at hok
        simp only [Except.ok.injEq, Prod.mk.injEq] at hok
        refine ⟨?_, o, rfl, hok.2.symm, hs⟩
        rw [← hok.2]
  · intro newStatus db' o' hok
    cases hg : get_order_by_id db orderId with
    | error e =>
      rw [update_order_status_eq_of_error db orderId newStatus e hg] at hok
      exact absurd hok (by simp)
    | ok o =>
      rw [update_order_status_eq_of_ok db orderId newStatus o hg] at hok
      simp only [Except.ok.injEq, Prod.mk.injEq] at hok
      rw [← hok.2]

/-- An order in the cancellable NEW status. -/
def orderC5w : Order :=
  { id := 1, userId := "u1", symbol := "AAPL", orderType := OrderType.BUY,
    orderStyle := OrderStyle.MARKET, quantity := 10, price := none,
    status := OrderStatus.NEW }

/-- A store containing only `orderC5w`. -/
def dbC5w : DB :=
  { instruments := [], orders := [orderC5w], trades := [], portfolio := []
    nextOrderId := 2, nextTradeId := 1 }

/-- Witness for the amended C5: a concrete successful cancellation. -/
theorem C5_witness :
    Order.status { orderC5w with status := OrderStatus.CANCELLED }
      = OrderStatus.CANCELLED
    ∧ ∃ o, get_order_by_id dbC5w 1 = Except.ok o
        ∧ ({ orderC5w with status := OrderStatus.CANCELLED } : Order)
            = { o with status := OrderStatus.CANCELLED }
        ∧ ¬(o.status = OrderStatus.EXECUTED ∨ o.status = OrderStatus.CANCELLED) :=
  (C5_only_cancel_preserves_transitions dbC5w 1).1
    (setOrderStatus dbC5w 1 OrderStatus.CANCELLED)
    { orderC5w with status := OrderStatus.CANCELLED } rfl

/-- Claim C6: the full `cancel_order` contract — unknown id fails with
`OrderNotFound`; EXECUTED/CANCELLED fails with `InvalidOrder` carrying the
status message; NEW/PLACED succeeds, returns the order with status
CANCELLED, and leaves trades, portfolio and instruments untouched. -/
theorem C6_cancel_order_contract (db : DB) (orderId : Nat) :
    (db.orders.find? (fun o => o.id == orderId) = none →
       cancel_order db orderId = Except.error (Err.orderNotFound orderId))
    ∧ (∀ o, db.orders.find? (fun x => x.id == orderId) = some o →
        ((o.status = OrderStatus.EXECUTED ∨ o.status = OrderStatus.CANCELLED) →
            cancel_order db orderId =
              Except.error (Err.invalidOrder
                ("Cannot cancel order in " ++ o.status.value ++ " status")))
        ∧ ((o.status = OrderStatus.NEW ∨ o.status = OrderStatus.PLACED) →
            cancel_order db orderId =
              Except.ok (setOrderStatus db orderId OrderStatus.CANCELLED,
                         { o with status := OrderStatus.CANCELLED })
            ∧ (setOrderStatus db orderId OrderStatus.CANCELLED).trades = db.trades
            ∧ (setOrderStatus db orderId OrderStatus.CANCELLED).portfolio
                = db.portfolio
            ∧ (setOrderStatus db orderId OrderStatus.CANCELLED).instruments
                = db.instruments)) := by
  constructor
  · intro hnone
    have hg : get_order_by_id db orderId = Except.error (Err.orderNotFound orderId) := by
      unfold get_order_by_id
      rw [hnone]
    exact cancel_order_eq_of_error db orderId _ hg
  · intro o hsome
    have hg : get_order_by_id db orderId = Except.ok o := by
      unfold get_order_by_id
      rw [hsome]
    constructor
    · intro hterm
      rw [cancel_order_eq_of_ok db orderId o hg, if_pos hterm]
    · intro hlive
      have hterm : ¬(o.status = OrderStatus.EXECUTED ∨ o.status = OrderStatus.CANCELLED) := by
        rcases hlive with h | h <;> rw [h] <;> simp
      rw [cancel_order_eq_of_ok db orderId o hg, if_neg hterm]
      exact ⟨rfl, rfl, rfl, rfl⟩

/-- An order in the cancellable PLACED status. -/
def orderC6 : Order :=
  { id := 7, userId := "u2", symbol := "GOOGL", orderType := OrderType.SELL,
    orderStyle := OrderStyle.LIMIT, quantity := 3, price := some 120,
    status := OrderStatus.PLACED }

/-- A store containing only `orderC6`. -/
def dbC6 : DB :=
  { instruments := [], orders := [orderC6], trades := [], portfolio := []
    nextOrderId := 8, nextTradeId := 1 }

/-- Witness for C6: cancelling a concrete PLACED order succeeds with no
trade or ledger side effects. -/
theorem C6_witness :
    cancel_order dbC6 7 =
      Except.ok (setOrderStatus dbC6 7 OrderStatus.CANCELLED,
                 { orderC6 with status := OrderStatus.CANCELLED })
    ∧ (setOrderStatus dbC6 7 OrderStatus.CANCELLED).trades = dbC6.trades
    ∧ (setOrderStatus dbC6 7 OrderStatus.CANCELLED).portfolio = dbC6.portfolio
    ∧ (setOrderStatus dbC6 7 OrderStatus.CANCELLED).instruments = dbC6.instruments :=
  ((C6_cancel_order_contract dbC6 7).2 orderC6 rfl).2 (Or.inr rfl)

/-- Claim C7: a non-positive quantity, or a LIMIT order with an absent or
non-positive price, is rejected with `InvalidOrder` by the validation that
`create_order` runs before building the order; the error return means no
order row is ever added (the store is only produced on the success path). -/
theorem C7_validation_rejects_before_creation (db : DB) (userId symbol : String)
    (orderType : OrderType) (orderStyle : OrderStyle) (quantity : ℤ)
    (price : Option ℚ) :
    (quantity ≤ 0 →
       create_order db userId symbol orderType orderStyle quantity price =
         Except.error (Err.invalidOrder "Quantity must be greater than 0"))
    ∧ (0 < quantity → orderStyle = OrderStyle.LIMIT → limitPriceBad price = true →
       create_order db userId symbol orderType orderStyle quantity price =
         Except.error (Err.invalidOrder "LIMIT orders must have a valid price"))
    ∧ ((quantity ≤ 0 ∨ (orderStyle = OrderStyle.LIMIT ∧ limitPriceBad price = true)) →
       ∃ msg, create_order db userId symbol orderType orderStyle quantity price =
         Except.error (Err.invalidOrder msg)) := by
  have h1 : quantity ≤ 0 →
      create_order db userId symbol orderType orderStyle quantity price =
        Except.error (Err.invalidOrder "Quantity must be greater than 0") := by
    intro hq
    have hv : validate_order db symbol orderType orderStyle quantity price userId =
        Except.error (Err.invalidOrder "Quantity must be greater than 0") := by
      unfold validate_order
      rw [if_pos hq]
    unfold create_order
    rw [hv]
  have h2 : 0 < quantity → orderStyle = OrderStyle.LIMIT → limitPriceBad price = true →
      create_order db userId symbol orderType orderStyle quantity price =
        Except.error (Err.invalidOrder "LIMIT orders must have a valid price") := by
    intro hq hstyle hbad
    have hv : validate_order db symbol orderType orderStyle quantity price userId =
        Except.error (Err.invalidOrder "LIMIT orders must have a valid price") := by
      unfold validate_order
      rw [if_neg (by omega), if_pos ⟨hstyle, hbad⟩]
    unfold create_order
    rw [hv]
  refine ⟨h1, h2, ?_⟩
  intro hbadinput
  rcases hbadinput with hq | ⟨hstyle, hbad⟩
  · exact ⟨_, h1 hq⟩
  · by_cases hq : quantity ≤ 0
    · exact ⟨_, h1 hq⟩
    · exact ⟨_, h2 (by omega) hstyle hbad⟩

/-- Witness for C7 at concrete bad inputs: zero quantity, and a LIMIT order
with no price. -/
theorem C7_witness :
    create_order dbC4 "u1" "AAPL" OrderType.BUY OrderStyle.MARKET 0 none =
      Except.error (Err.invalidOrder "Quantity must be greater than 0")
    ∧ create_order dbC4 "u1" "AAPL" OrderType.BUY OrderStyle.LIMIT 10 none =
      Except.error (Err.invalidOrder "LIMIT orders must have a valid price") :=
  ⟨(C7_validation_rejects_before_creation dbC4 "u1" "AAPL" OrderType.BUY
      OrderStyle.MARKET 0 none).1 (by omega),
   (C7_validation_rejects_before_creation dbC4 "u1" "AAPL" OrderType.BUY
      OrderStyle.LIMIT 10 none).2.1 (by omega) rfl rfl⟩

/-- A store with one active instrument "AAPL" and an empty portfolio. -/
def dbC3 : DB :=
  { instruments := [{ symbol := "AAPL", lastTradedPrice := 150, isActive := true }]
    orders := [], trades := [], portfolio := []
    nextOrderId := 1, nextTradeId := 1 }

/-- Claim C3 counterexample: a SELL validation with no holding row does
not always fail with `InsufficientHoldings` — with requested quantity 0
(no holding exists, so the claim's hypothesis holds and it predicts
`InsufficientHoldings` with available 0 and requested 0) the earlier
quantity check fires first and the failure is `InvalidOrder`. -/
theorem C3_counterexample :
    getUserHolding dbC3 "u1" "AAPL" = none
    ∧ validate_order dbC3 "AAPL" OrderType.SELL OrderStyle.MARKET 0 none "u1"
        = Except.error (Err.invalidOrder "Quantity must be greater than 0")
    ∧ validate_order dbC3 "AAPL" OrderType.SELL OrderStyle.MARKET 0 none "u1"
        ≠ Except.error (Err.insufficientHoldings "AAPL" 0 0) :=
  ⟨rfl, rfl, fun hcontr => Err.noConfusion (Except.error.inj hcontr)⟩

/-- Claim C3 (amended): for a SELL validation that passes the earlier
checks — positive quantity, not a LIMIT order with a missing/non-positive
price, and a symbol resolving to an active instrument — if the user's
holding is absent or smaller than the requested quantity, `validate_order`
fails with `InsufficientHoldings` carrying the symbol, the available
quantity (0 when no row exists) and the requested quantity.  The check is
pure: it performs no store mutation, so the ledger is untouched. -/
theorem C3_insufficient_holdings_on_oversell (db : DB) (symbol userId : String)
    (orderStyle : OrderStyle) (quantity : ℤ) (price : Option ℚ) (inst : Instrument)
    (hq : 0 < quantity)
    (hstyle : ¬(orderStyle = OrderStyle.LIMIT ∧ limitPriceBad price = true))
    (hres : getInstrumentBySymbol db symbol = Except.ok inst)
    (hins : ∀ h, getUserHolding db userId symbol = some h → h.quantity < quantity) :
    validate_order db symbol OrderType.SELL orderStyle quantity price userId =
      Except.error (Err.insufficientHoldings symbol
        (((getUserHolding db userId symbol).map Portfolio.quantity).getD 0)
        quantity) := by
  have hq' : ¬(quantity ≤ 0) := by omega
  cases hh : getUserHolding db userId symbol with
  | none =>
    simp [validate_order, hq', hstyle, hres, hh]
  | some h =>
    simp [validate_order, hq', hstyle, hres, hh, hins h hh]

/-- A store where user "u1" holds 10 AAPL under the canonical upper-case
symbol, and AAPL is an active instrument. -/
def dbC9 : DB :=
  { instruments := [{ symbol := "AAPL", lastTradedPrice := 150, isActive := true }]
    orders := [], trades := []
    portfolio := [{ userId := "u1", symbol := "AAPL", quantity := 10,
                    averagePrice := 150, totalInvested := 1500 }]
    nextOrderId := 1, nextTradeId := 1 }

/-- Witness for the amended C3: selling 20 against a holding of 10, and the
reported available quantity is 10. -/
theorem C3_witness :
    validate_order dbC9 "AAPL" OrderType.SELL OrderStyle.MARKET 20 none "u1" =
      Except.error (Err.insufficientHoldings "AAPL" 10 20) := by
  have h := C3_insufficient_holdings_on_oversell dbC9 "AAPL" "u1"
    OrderStyle.MARKET 20 none
    { symbol := "AAPL", lastTradedPrice := 150, isActive := true }
    (by omega) (by decide) (by decide)
    (fun h hh => by
      have he : ({ userId := "u1", symbol := "AAPL", quantity := 10,
                   averagePrice := 150, totalInvested := 1500 } : Portfolio) = h :=
        Option.some.inj hh
      rw [← he]
      decide)
  exact h.trans (by decide)

/-- Claim C9 counterexample: validation is not case-insensitive throughout.
With a holding of 10 AAPL stored under the canonical symbol, a SELL of 5
spelled "aapl" spuriously fails with `InsufficientHoldings` reporting
available 0 (the holding lookup uses the raw input symbol), while the same
SELL spelled "AAPL" succeeds — so `validate_order` does not behave
identically on a symbol and its upper-casing. -/
theorem C9_counterexample :
    validate_order dbC9 "aapl" OrderType.SELL OrderStyle.MARKET 5 none "u1"
      = Except.error (Err.insufficientHoldings "aapl" 0 5)
    ∧ validate_order dbC9 "AAPL" OrderType.SELL OrderStyle.MARKET 5 none "u1"
      = Except.ok { symbol := "AAPL", lastTradedPrice := 150, isActive := true } := by
  exact ⟨by decide, by decide⟩

/-- Claim C9 (amended): catalog resolution upper-cases the input symbol,
but the sell-coverage holding lookup uses the raw input symbol verbatim.
So when a holding exists only under the upper-case canonical spelling and
covers the requested quantity, validation of the same SELL succeeds on the
canonical spelling but fails with `InsufficientHoldings` (available
reported as 0) on any spelling that differs from the stored one. -/
theorem C9_sell_lookup_case_sensitive (db : DB) (s userId : String)
    (quantity : ℤ) (inst : Instrument) (h : Portfolio)
    (hq : 0 < quantity)
    (hres : getInstrumentBySymbol db s = Except.ok inst)
    (hresU : getInstrumentBySymbol db (strUpper s) = Except.ok inst)
    (hraw : getUserHolding db userId s = none)
    (hcan : getUserHolding db userId (strUpper s) = some h)
    (hqty : quantity ≤ h.quantity) :
    validate_order db s OrderType.SELL OrderStyle.MARKET quantity none userId
      = Except.error (Err.insufficientHoldings s 0 quantity)
    ∧ validate_order db (strUpper s) OrderType.SELL OrderStyle.MARKET quantity none userId
      = Except.ok inst := by
  have hq' : ¬(quantity ≤ 0) := by omega
  have hlt : ¬(h.quantity < quantity) := by omega
  constructor
  · simp [validate_order, hq', hres, hraw]
  · simp [validate_order, hq', hresU, hcan, hlt]

/-- Witness for the amended C9 at the concrete store `dbC9`. -/
theorem C9_witness :
    validate_order dbC9 "aapl" OrderType.SELL OrderStyle.MARKET 5 none "u1"
      = Except.error (Err.insufficientHoldings "aapl" 0 5)
    ∧ validate_order dbC9 ((strUpper "aapl")) OrderType.SELL OrderStyle.MARKET 5 none "u1"
      = Except.ok { symbol := "AAPL", lastTradedPrice := 150, isActive := true } :=
  C9_sell_lookup_case_sensitive dbC9 "aapl" "u1" 5
    { symbol := "AAPL", lastTradedPrice := 150, isActive := true }
    { userId := "u1", symbol := "AAPL", quantity := 10,
      averagePrice := 150, totalInvested := 1500 }
    (by decide) (by decide) (by decide) (by decide) (by decide) (by decide)

/-- The `unique_user_symbol` constraint of the portfolio table: no two rows
share a (user, symbol) pair. -/
def holdingsUnique (db : DB) : Prop :=
  db.portfolio.Pairwise (fun a b => ¬(a.userId = b.userId ∧ a.symbol = b.symbol))

/-- Claim C2: a SELL applied to an existing holding leaves `averagePrice`
unchanged, decreases `quantity` by exactly the traded amount, recomputes
`totalInvested = averagePrice * newQuantity` when the new quantity is
positive, and deletes the row entirely when the new quantity is zero (no
zero-quantity row remains); only the portfolio table is touched. -/
theorem C2_sell_updates_holding (db : DB) (t : Trade) (h : Portfolio)
    (hu : holdingsUnique db)
    (ht : t.tradeType = OrderType.SELL)
    (hfind : getUserHolding db t.userId t.symbol = some h) :
    ((update_portfolio_after_trade db t).1.instruments = db.instruments
      ∧ (update_portfolio_after_trade db t).1.orders = db.orders
      ∧ (update_portfolio_after_trade db t).1.trades = db.trades)
    ∧ (h.quantity = t.quantity →
        getUserHolding (update_portfolio_after_trade db t).1 t.userId t.symbol = none)
    ∧ (t.quantity < h.quantity →
        getUserHolding (update_portfolio_after_trade db t).1 t.userId t.symbol =
          some { h with quantity := h.quantity - t.quantity,
                        totalInvested :=
                          h.averagePrice * ((h.quantity - t.quantity : ℤ) : ℚ) }) := by
  have hfind' : db.portfolio.find?
      (fun x => x.userId == t.userId && x.symbol == t.symbol) = some h := hfind
  obtain ⟨hp, front, back, hsplit, hfront⟩ := List.find?_eq_some.mp hfind'
  have hfront' : ∀ x ∈ front, (x.userId == t.userId && x.symbol == t.symbol) = false := by
    intro x hx
    have h2 := hfront x hx
    rwa [Bool.not_eq_true'] at h2
  have hpe : h.userId = t.userId ∧ h.symbol = t.symbol := by simpa using hp
  have hb : ∀ x ∈ back, (x.userId == t.userId && x.symbol == t.symbol) = false := by
    rw [holdingsUnique, hsplit] at hu
    have h2 := (List.pairwise_append.mp hu).2.1
    have h3 := (List.pairwise_cons.mp h2).1
    intro x hx
    have hr := h3 x hx
    by_contra hcontra
    rw [Bool.not_eq_false] at hcontra
    have hxe : x.userId = t.userId ∧ x.symbol = t.symbol := by simpa using hcontra
    exact hr ⟨hpe.1.trans hxe.1.symm, hpe.2.trans hxe.2.symm⟩
  refine ⟨update_portfolio_fields db t, ?_, ?_⟩
  · intro heq
    have hzero : h.quantity - t.quantity = 0 := by omega
    have hstep : (update_portfolio_after_trade db t).1.portfolio =
        removeFirstHolding db.portfolio t.userId t.symbol := by
      simp [update_portfolio_after_trade, hfind, ht, hzero]
    have hgoal : getUserHolding (update_portfolio_after_trade db t).1 t.userId t.symbol =
        (removeFirstHolding db.portfolio t.userId t.symbol).find?
          (fun x => x.userId == t.userId && x.symbol == t.symbol) := by
      unfold getUserHolding
      rw [hstep]
    rw [hgoal, hsplit, removeFirstHolding_append_cons front back _ _ h hfront' hp]
    refine List.find?_eq_none.mpr ?_
    intro x hx
    rcases List.mem_append.mp hx with hxf | hxb
    · simp [hfront' x hxf]
    · simp [hb x hxb]
  · intro hlt
    have hne : ¬(h.quantity - t.quantity = 0) := by omega
    have hstep : (update_portfolio_after_trade db t).1.portfolio =
        updateFirstHolding db.portfolio t.userId t.symbol
          { h with quantity := h.quantity - t.quantity,
                   totalInvested :=
                     h.averagePrice * ((h.quantity - t.quantity : ℤ) : ℚ) } := by
      simp [update_portfolio_after_trade, hfind, ht, hne]
    have hgoal : getUserHolding (update_portfolio_after_trade db t).1 t.userId t.symbol =
        (updateFirstHolding db.portfolio t.userId t.symbol
          { h with quantity := h.quantity - t.quantity,
                   totalInvested :=
                     h.averagePrice * ((h.quantity - t.quantity : ℤ) : ℚ) }).find?
          (fun x => x.userId == t.userId && x.symbol == t.symbol) := by
      unfold getUserHolding
      rw [hstep]
    rw [hgoal]
    exact find?_updateFirstHolding db.portfolio t.userId t.symbol h _ hfind' hp

/-- The SELL trade used by the C2 witness: selling the full held quantity. -/
def tradeC2 : Trade :=
  { id := 1, orderId := 1, userId := "u1", symbol := "AAPL",
    tradeType := OrderType.SELL, quantity := 10, executedPrice := 155,
    totalValue := 1550 }

/-- Witness for C2 at a concrete store: selling the full holding of 10
deletes the row; the other tables are untouched. -/
theorem C2_witness :
    ((update_portfolio_after_trade dbC9 tradeC2).1.instruments = dbC9.instruments
      ∧ (update_portfolio_after_trade dbC9 tradeC2).1.orders = dbC9.orders
      ∧ (update_portfolio_after_trade dbC9 tradeC2).1.trades = dbC9.trades)
    ∧ ((10 : ℤ) = 10 →
        getUserHolding (update_portfolio_after_trade dbC9 tradeC2).1 "u1" "AAPL" = none)
    ∧ ((10 : ℤ) < 10 →
        getUserHolding (update_portfolio_after_trade dbC9 tradeC2).1 "u1" "AAPL" =
          some { userId := "u1", symbol := "AAPL", quantity := 10 - 10,
                 averagePrice := 150,
                 totalInvested := 150 * (((10 : ℤ) - 10 : ℤ) : ℚ) }) :=
  C2_sell_updates_holding dbC9 tradeC2
    { userId := "u1", symbol := "AAPL", quantity := 10,
      averagePrice := 150, totalInvested := 1500 }
    (by simp [holdingsUnique, dbC9]) rfl rfl

/-- Total quantity of a list of (fill price, quantity) pairs. -/
def sumQty (l : List (ℚ × ℤ)) : ℤ := (l.map fun pq => pq.2).sum

/-- Total traded value of a list of (fill price, quantity) pairs. -/
def sumVal (l : List (ℚ × ℤ)) : ℚ := (l.map fun pq => pq.1 * (pq.2 : ℚ)).sum

/-- A BUY trade for the given user, symbol, fill price and quantity, with
`totalValue` as `create_trade` computes it. -/
def buyTrade (u s : String) (p : ℚ) (q : ℤ) : Trade :=
  { id := 0, orderId := 0, userId := u, symbol := s,
    tradeType := OrderType.BUY, quantity := q, executedPrice := p,
    totalValue := p * (q : ℚ) }

/-- Settle a list of trades against the ledger in order. -/
def applyTrades (db : DB) (ts : List Trade) : DB :=
  ts.foldl (fun d t => (update_portfolio_after_trade d t).1) db

/-- One BUY against the (u, s) row kept as the last portfolio entry:
the row is recomputed with the weighted-average rule in place. -/
theorem buy_step (db : DB) (u s : String) (front : List Portfolio)
    (q0 : ℤ) (a0 : ℚ) (p : ℚ) (q : ℤ)
    (hf : ∀ x ∈ front, (x.userId == u && x.symbol == s) = false)
    (hport : db.portfolio = front ++ [⟨u, s, q0, a0, a0 * (q0 : ℚ)⟩]) :
    (update_portfolio_after_trade db (buyTrade u s p q)).1.portfolio =
      front ++ [⟨u, s, q0 + q,
        (a0 * (q0 : ℚ) + p * (q : ℚ)) / ((q0 + q : ℤ) : ℚ),
        (a0 * (q0 : ℚ) + p * (q : ℚ)) / ((q0 + q : ℤ) : ℚ) * ((q0 + q : ℤ) : ℚ)⟩] := by
  have hcur : ((⟨u, s, q0, a0, a0 * (q0 : ℚ)⟩ : Portfolio).userId == u
      && (⟨u, s, q0, a0, a0 * (q0 : ℚ)⟩ : Portfolio).symbol == s) = true := by simp
  have hfind : getUserHolding db u s = some ⟨u, s, q0, a0, a0 * (q0 : ℚ)⟩ := by
    unfold getUserHolding
    rw [hport, List.find?_append,
        List.find?_eq_none.mpr (fun x hx => by simp [hf x hx])]
    simp
  simp only [update_portfolio_after_trade, buyTrade, hfind]
  rw [hport, updateFirstHolding_append_cons front [] u s _ _ hf hcur]

/-- Folding a list of positive-quantity BUY trades over a store whose (u, s)
row is the last portfolio entry with quantity `Q` and invested value `V`
accumulates the sums of quantities and values. -/
theorem buy_fold (u s : String) (l : List (ℚ × ℤ)) :
    ∀ (db : DB) (front : List Portfolio) (Q : ℤ) (V : ℚ),
    (∀ pq ∈ l, 0 < pq.2) → 0 < Q →
    (∀ x ∈ front, (x.userId == u && x.symbol == s) = false) →
    db.portfolio = front ++ [⟨u, s, Q, V / (Q : ℚ), V / (Q : ℚ) * (Q : ℚ)⟩] →
    (applyTrades db (l.map fun pq => buyTrade u s pq.1 pq.2)).portfolio =
      front ++ [⟨u, s, Q + sumQty l,
        (V + sumVal l) / ((Q + sumQty l : ℤ) : ℚ),
        (V + sumVal l) / ((Q + sumQty l : ℤ) : ℚ) * ((Q + sumQty l : ℤ) : ℚ)⟩] := by
  induction l with
  | nil =>
    intro db front Q V hpos hQ hf hport
    simp only [List.map_nil, applyTrades, List.foldl_nil]
    rw [hport]
    simp [sumQty, sumVal]
  | cons pq t ih =>
    intro db front Q V hpos hQ hf hport
    obtain ⟨p, q⟩ := pq
    have hq : 0 < q := by simpa using hpos (p, q) (by simp)
    have hQ0 : ((Q : ℚ)) ≠ 0 := Int.cast_ne_zero.mpr (by omega)
    have hcancel : V / (Q : ℚ) * (Q : ℚ) = V := div_mul_cancel₀ V hQ0
    have happly : applyTrades db (((p, q) :: t).map fun pq => buyTrade u s pq.1 pq.2) =
        applyTrades (update_portfolio_after_trade db (buyTrade u s p q)).1
          (t.map fun pq => buyTrade u s pq.1 pq.2) := by
      simp [applyTrades]
    have hport2 : (update_portfolio_after_trade db (buyTrade u s p q)).1.portfolio =
        front ++ [⟨u, s, Q + q,
          (V + p * (q : ℚ)) / ((Q + q : ℤ) : ℚ),
          (V + p * (q : ℚ)) / ((Q + q : ℤ) : ℚ) * ((Q + q : ℤ) : ℚ)⟩] := by
      rw [buy_step db u s front Q (V / (Q : ℚ)) p q hf hport, hcancel]
    have ihres := ih (update_portfolio_after_trade db (buyTrade u s p q)).1 front
      (Q + q) (V + p * (q : ℚ))
      (fun x hx => hpos x (List.mem_cons_of_mem _ hx)) (by omega) hf hport2
    rw [happly, ihres,
        show sumQty ((p, q) :: t) = q + sumQty t from by simp [sumQty],
        show sumVal ((p, q) :: t) = p * (q : ℚ) + sumVal t from by simp [sumVal],
        show Q + (q + sumQty t) = Q + q + sumQty t from (add_assoc Q q (sumQty t)).symm,
        show V + (p * (q : ℚ) + sumVal t) = V + p * (q : ℚ) + sumVal t from
          (add_assoc V (p * (q : ℚ)) (sumVal t)).symm]

/-- Claim C1: starting from a store with no (u, s) holding, settling any
non-empty sequence of positive-quantity BUY trades leaves a (u, s) holding
whose quantity is the sum of the traded quantities, whose `averagePrice`
is the quantity-weighted mean of the fill prices
(sum of price*qty over sum of qty), and whose `totalInvested` is
`averagePrice * quantity`. -/
theorem C1_buy_sequence_weighted_average (db : DB) (u s : String)
    (l : List (ℚ × ℤ))
    (hne : l ≠ [])
    (hpos : ∀ pq ∈ l, 0 < pq.2)
    (hnone : ∀ x ∈ db.portfolio, (x.userId == u && x.symbol == s) = false) :
    getUserHolding (applyTrades db (l.map fun pq => buyTrade u s pq.1 pq.2)) u s =
      some ⟨u, s, sumQty l,
        sumVal l / ((sumQty l : ℤ) : ℚ),
        sumVal l / ((sumQty l : ℤ) : ℚ) * ((sumQty l : ℤ) : ℚ)⟩ := by
  obtain ⟨⟨p, q⟩, t, rfl⟩ : ∃ pq t, l = pq :: t := by
    cases l with
    | nil => exact absurd rfl hne
    | cons a t => exact ⟨a, t, rfl⟩
  rw [show sumQty ((p, q) :: t) = q + sumQty t from by simp [sumQty],
      show sumVal ((p, q) :: t) = p * (q : ℚ) + sumVal t from by simp [sumVal]]
  have hq : 0 < q := by simpa using hpos (p, q) (by simp)
  have hq0 : ((q : ℚ)) ≠ 0 := Int.cast_ne_zero.mpr (by omega)
  have hfind0 : getUserHolding db u s = none := by
    unfold getUserHolding
    exact List.find?_eq_none.mpr (fun x hx => by simp [hnone x hx])
  have hstep0 : (update_portfolio_after_trade db (buyTrade u s p q)).1.portfolio =
      db.portfolio ++ [⟨u, s, q, p, p * (q : ℚ)⟩] := by
    simp [update_portfolio_after_trade, buyTrade, hfind0]
  have hps : (⟨u, s, q, p, p * (q : ℚ)⟩ : Portfolio) =
      ⟨u, s, q, p * (q : ℚ) / (q : ℚ), p * (q : ℚ) / (q : ℚ) * (q : ℚ)⟩ := by
    rw [mul_div_cancel_right₀ p hq0]
  have hport1 : (update_portfolio_after_trade db (buyTrade u s p q)).1.portfolio =
      db.portfolio ++ [⟨u, s, q, p * (q : ℚ) / (q : ℚ),
        p * (q : ℚ) / (q : ℚ) * (q : ℚ)⟩] := by
    rw [hstep0, hps]
  have hfold := buy_fold u s t (update_portfolio_after_trade db (buyTrade u s p q)).1
    db.portfolio q (p * (q : ℚ))
    (fun x hx => hpos x (List.mem_cons_of_mem _ hx)) hq hnone hport1
  have happly : applyTrades db (((p, q) :: t).map fun pq => buyTrade u s pq.1 pq.2) =
      applyTrades (update_portfolio_after_trade db (buyTrade u s p q)).1
        (t.map fun pq => buyTrade u s pq.1 pq.2) := by
    simp [applyTrades]
  unfold getUserHolding
  rw [happly, hfold, List.find?_append,
      List.find?_eq_none.mpr (fun x hx => by simp [hnone x hx])]
  simp

/-- Witness for C1: buying 10 @ 150 then 10 @ 160 yields quantity 20,
average cost 155, total invested 3100. -/
theorem C1_witness :
    getUserHolding (applyTrades dbC4 ([((150 : ℚ), (10 : ℤ)), (160, 10)].map
        fun pq => buyTrade "u1" "AAPL" pq.1 pq.2)) "u1" "AAPL" =
      some ⟨"u1", "AAPL", 20, 155, 3100⟩ := by
  have h := C1_buy_sequence_weighted_average dbC4 "u1" "AAPL"
    [(150, 10), (160, 10)] (by decide) (by decide) (by decide)
  refine h.trans ?_
  norm_num [sumQty, sumVal]

/-- The fill price `execute_order` determines: MARKET → the instrument's
last traded price, LIMIT → the order's own price. -/
def execPrice (o : Order) (inst : Instrument) : ℚ :=
  if o.orderStyle = OrderStyle.MARKET then inst.lastTradedPrice
  else o.price.getD 0

/-- `execute_order` propagates an instrument-resolution failure and, the
lookup being its first step, performs no mutation in that case. -/
theorem execute_order_eq_of_error (db : DB) (o : Order) (e : Err)
    (hres : getInstrumentBySymbol db o.symbol = Except.error e) :
    execute_order db o = Except.error e := by
  unfold execute_order
  rw [hres]

/-- Unfolding equation for a successful `execute_order` run. -/
theorem execute_order_eq_of_ok (db : DB) (o : Order) (inst : Instrument)
    (hres : getInstrumentBySymbol db o.symbol = Except.ok inst) :
    execute_order db o = Except.ok
      { db := setOrderStatus
          (update_portfolio_after_trade
            (create_trade (setOrderStatus db o.id OrderStatus.PLACED) o
              (execPrice o inst)).1
            (create_trade (setOrderStatus db o.id OrderStatus.PLACED) o
              (execPrice o inst)).2).1
          o.id OrderStatus.EXECUTED
        trade := (create_trade (setOrderStatus db o.id OrderStatus.PLACED) o
          (execPrice o inst)).2
        statusWrites := [OrderStatus.PLACED, OrderStatus.EXECUTED] } := by
  unfold execute_order execPrice
  rw [hres]

/-- Instrument resolution depends only on the instruments table. -/
theorem getInstrumentBySymbol_congr (db db' : DB) (s : String)
    (h : db.instruments = db'.instruments) :
    getInstrumentBySymbol db s = getInstrumentBySymbol db' s := by
  unfold getInstrumentBySymbol
  rw [h]

/-- Holding lookup depends only on the portfolio table. -/
theorem getUserHolding_congr (db db' : DB) (u s : String)
    (h : db.portfolio = db'.portfolio) :
    getUserHolding db u s = getUserHolding db' u s := by
  unfold getUserHolding
  rw [h]

/-- After writing a status onto the row with a given id, the first row with
that id is the old first row with the new status. -/
theorem find?_setOrderStatus (l : List Order) (i : Nat) (st : OrderStatus)
    (o : Order)
    (hfind : l.find? (fun x => x.id == i) = some o) :
    (l.map fun x => if x.id == i then { x with status := st } else x).find?
      (fun x => x.id == i) = some { o with status := st } := by
  induction l with
  | nil => simp [List.find?] at hfind
  | cons a t ih =>
    by_cases ha : (a.id == i) = true
    · have hao : a = o := by simpa [List.find?_cons, ha] using hfind
      subst hao
      rw [List.map_cons, if_pos ha, List.find?_cons]
      have hb : (({ a with status := st } : Order).id == i) = true := ha
      rw [hb]
    · rw [Bool.not_eq_true] at ha
      simp only [List.find?_cons, ha] at hfind
      simp only [List.map_cons, ha, Bool.false_eq_true, if_false]
      rw [List.find?_cons, ha]
      exact ih hfind

/-- A BUY settled against an existing holding leaves a holding whose
quantity grew by exactly the traded quantity. -/
theorem getUserHolding_after_buy (db : DB) (t : Trade) (h : Portfolio)
    (ht : t.tradeType = OrderType.BUY)
    (hfind : getUserHolding db t.userId t.symbol = some h) :
    ∃ h', getUserHolding (update_portfolio_after_trade db t).1 t.userId t.symbol
        = some h'
      ∧ h'.quantity = h.quantity + t.quantity := by
  have hfind' : db.portfolio.find?
      (fun x => x.userId == t.userId && x.symbol == t.symbol) = some h := hfind
  have hp := List.find?_some hfind'
  have hstep : (update_portfolio_after_trade db t).1.portfolio =
      updateFirstHolding db.portfolio t.userId t.symbol
        { h with
            averagePrice :=
              (h.averagePrice * (h.quantity : ℚ) + t.executedPrice * (t.quantity : ℚ))
                / ((h.quantity + t.quantity : ℤ) : ℚ)
            quantity := h.quantity + t.quantity
            totalInvested :=
              (h.averagePrice * (h.quantity : ℚ) + t.executedPrice * (t.quantity : ℚ))
                / ((h.quantity + t.quantity : ℤ) : ℚ)
                * ((h.quantity + t.quantity : ℤ) : ℚ) } := by
    simp [update_portfolio_after_trade, hfind, ht]
  refine ⟨{ h with
      averagePrice :=
        (h.averagePrice * (h.quantity : ℚ) + t.executedPrice * (t.quantity : ℚ))
          / ((h.quantity + t.quantity : ℤ) : ℚ)
      quantity := h.quantity + t.quantity
      totalInvested :=
        (h.averagePrice * (h.quantity : ℚ) + t.executedPrice * (t.quantity : ℚ))
          / ((h.quantity + t.quantity : ℤ) : ℚ)
          * ((h.quantity + t.quantity : ℤ) : ℚ) }, ?_, rfl⟩
  unfold getUserHolding
  rw [hstep]
  exact find?_updateFirstHolding db.portfolio t.userId t.symbol h _ hfind' hp

/-- Everything a successful `execute_order` run does: the created trade's
exact fields, instruments unchanged, exactly one trade appended, the
portfolio equal to applying that one trade against the original store,
the two status writes PLACED then EXECUTED, and the order row left in
EXECUTED. -/
theorem execute_order_ok_facts (db : DB) (o : Order) (inst : Instrument)
    (hres : getInstrumentBySymbol db o.symbol = Except.ok inst) :
    ∃ r : ExecResult, execute_order db o = Except.ok r
      ∧ r.trade = { id := db.nextTradeId, orderId := o.id, userId := o.userId,
                    symbol := o.symbol, tradeType := o.orderType,
                    quantity := o.quantity,
                    executedPrice := execPrice o inst,
                    totalValue := execPrice o inst * (o.quantity : ℚ) }
      ∧ r.db.instruments = db.instruments
      ∧ r.db.trades = db.trades ++ [r.trade]
      ∧ r.db.portfolio = (update_portfolio_after_trade db r.trade).1.portfolio
      ∧ r.statusWrites = [OrderStatus.PLACED, OrderStatus.EXECUTED]
      ∧ (∀ ord, db.orders.find? (fun x => x.id == o.id) = some ord →
           r.db.orders.find? (fun x => x.id == o.id) =
             some { ord with status := OrderStatus.EXECUTED }) := by
  refine ⟨_, execute_order_eq_of_ok db o inst hres, rfl, ?_, ?_, ?_, rfl, ?_⟩
  · simp only [setOrderStatus]
    rw [(update_portfolio_fields _ _).1]
    rfl
  · simp only [setOrderStatus]
    rw [(update_portfolio_fields _ _).2.2]
    rfl
  · exact update_portfolio_portfolio_congr _ _ _ (by simp [create_trade, setOrderStatus])
  · intro ord hord
    have h1 := find?_setOrderStatus db.orders o.id OrderStatus.PLACED ord hord
    have h2 := find?_setOrderStatus _ o.id OrderStatus.EXECUTED _ h1
    have hXorders := (update_portfolio_fields
      (create_trade (setOrderStatus db o.id OrderStatus.PLACED) o
        (execPrice o inst)).1
      (create_trade (setOrderStatus db o.id OrderStatus.PLACED) o
        (execPrice o inst)).2).2.1
    simp only [setOrderStatus] at hXorders ⊢
    rw [hXorders]
    exact h2

/-- Claim C8: executing an order whose instrument resolves produces exactly
one new Trade — filled at the instrument's last traded price for MARKET, at
the order's own limit price for LIMIT — with totalValue = executedPrice ×
quantity (exact), exactly one holdings update (the final portfolio equals
applying that single trade to the original store), the status writes
PLACED then EXECUTED with the order row left EXECUTED; an instrument
resolution failure aborts with that error before any mutation. -/
theorem C8_execute_order_contract (db : DB) (o : Order) (inst : Instrument)
    (hstatus : o.status = OrderStatus.NEW) :
    (∀ e, getInstrumentBySymbol db o.symbol = Except.error e →
        execute_order db o = Except.error e)
    ∧ (getInstrumentBySymbol db o.symbol = Except.ok inst →
        ∃ r : ExecResult, execute_order db o = Except.ok r
          ∧ (o.orderStyle = OrderStyle.MARKET →
              r.trade.executedPrice = inst.lastTradedPrice
              ∧ r.trade.totalValue = inst.lastTradedPrice * (o.quantity : ℚ))
          ∧ (∀ p, o.orderStyle = OrderStyle.LIMIT → o.price = some p →
              r.trade.executedPrice = p
              ∧ r.trade.totalValue = p * (o.quantity : ℚ))
          ∧ r.trade.orderId = o.id
          ∧ r.trade.quantity = o.quantity
          ∧ r.trade.tradeType = o.orderType
          ∧ r.db.trades = db.trades ++ [r.trade]
          ∧ r.db.portfolio = (update_portfolio_after_trade db r.trade).1.portfolio
          ∧ r.statusWrites = [OrderStatus.PLACED, OrderStatus.EXECUTED]
          ∧ (∀ ord, db.orders.find? (fun x => x.id == o.id) = some ord →
               r.db.orders.find? (fun x => x.id == o.id) =
                 some { ord with status := OrderStatus.EXECUTED })) := by
  refine ⟨execute_order_eq_of_error db o, ?_⟩
  intro hres
  obtain ⟨r, he, htr, hins, htrs, hport, hsw, hords⟩ :=
    execute_order_ok_facts db o inst hres
  refine ⟨r, he, ?_, ?_, ?_, ?_, ?_, htrs, hport, hsw, hords⟩
  · intro hstyle
    rw [htr]
    constructor <;> simp [execPrice, hstyle]
  · intro p hstyle hp
    rw [htr]
    constructor <;> simp [execPrice, hstyle, hp]
  · rw [htr]
  · rw [htr]
  · rw [htr]

/-- The active instrument used by the C8 witness. -/
def instC8 : Instrument := { symbol := "AAPL", lastTradedPrice := 150, isActive := true }

/-- A NEW market order for the C8 witness. -/
def orderC8 : Order :=
  { id := 1, userId := "u1", symbol := "AAPL", orderType := OrderType.BUY,
    orderStyle := OrderStyle.MARKET, quantity := 10, price := none,
    status := OrderStatus.NEW }

/-- Store for the C8 witness. -/
def dbC8 : DB :=
  { instruments := [instC8], orders := [orderC8], trades := [], portfolio := []
    nextOrderId := 2, nextTradeId := 1 }

/-- Witness for C8: executing a concrete NEW market order. -/
theorem C8_witness :
    ∃ r : ExecResult, execute_order dbC8 orderC8 = Except.ok r
      ∧ (orderC8.orderStyle = OrderStyle.MARKET →
          r.trade.executedPrice = instC8.lastTradedPrice
          ∧ r.trade.totalValue = instC8.lastTradedPrice * (orderC8.quantity : ℚ))
      ∧ (∀ p, orderC8.orderStyle = OrderStyle.LIMIT → orderC8.price = some p →
          r.trade.executedPrice = p
          ∧ r.trade.totalValue = p * (orderC8.quantity : ℚ))
      ∧ r.trade.orderId = orderC8.id
      ∧ r.trade.quantity = orderC8.quantity
      ∧ r.trade.tradeType = orderC8.orderType
      ∧ r.db.trades = dbC8.trades ++ [r.trade]
      ∧ r.db.portfolio = (update_portfolio_after_trade dbC8 r.trade).1.portfolio
      ∧ r.statusWrites = [OrderStatus.PLACED, OrderStatus.EXECUTED]
      ∧ (∀ ord, dbC8.orders.find? (fun x => x.id == orderC8.id) = some ord →
           r.db.orders.find? (fun x => x.id == orderC8.id) =
             some { ord with status := OrderStatus.EXECUTED }) :=
  (C8_execute_order_contract dbC8 orderC8 instC8 rfl).2 (by decide)

/-- Claim C10: `execute_order` imposes no precondition on the order's
status.  For any order whose instrument resolves — its status unconstrained,
so in particular EXECUTED or CANCELLED — execution succeeds, appends a
trade, applies the holdings effect and marks the order EXECUTED; doing it
twice appends two trades for the same order id and applies the BUY
holdings effect twice (quantity grows by 2 × the order quantity). -/
theorem C10_execute_ignores_status (db : DB) (o : Order) (inst : Instrument)
    (h : Portfolio)
    (hres : getInstrumentBySymbol db o.symbol = Except.ok inst)
    (hbuy : o.orderType = OrderType.BUY)
    (hfind : getUserHolding db o.userId o.symbol = some h) :
    ∃ r1 r2 : ExecResult,
      execute_order db o = Except.ok r1
      ∧ execute_order r1.db o = Except.ok r2
      ∧ r1.trade.orderId = o.id
      ∧ r2.trade.orderId = o.id
      ∧ r1.db.trades.length = db.trades.length + 1
      ∧ r2.db.trades.length = db.trades.length + 2
      ∧ (∀ ord, db.orders.find? (fun x => x.id == o.id) = some ord →
           r1.db.orders.find? (fun x => x.id == o.id) =
             some { ord with status := OrderStatus.EXECUTED })
      ∧ ∃ h2, getUserHolding r2.db o.userId o.symbol = some h2
          ∧ h2.quantity = h.quantity + 2 * o.quantity := by
  obtain ⟨r1, he1, htr1, hins1, htrs1, hport1, hsw1, hords1⟩ :=
    execute_order_ok_facts db o inst hres
  have hres2 : getInstrumentBySymbol r1.db o.symbol = Except.ok inst := by
    rw [getInstrumentBySymbol_congr r1.db db o.symbol hins1]
    exact hres
  obtain ⟨r2, he2, htr2, hins2, htrs2, hport2, hsw2, hords2⟩ :=
    execute_order_ok_facts r1.db o inst hres2
  have ht1 : r1.trade.tradeType = OrderType.BUY := by rw [htr1]; exact hbuy
  have hu1 : r1.trade.userId = o.userId := by rw [htr1]
  have hs1 : r1.trade.symbol = o.symbol := by rw [htr1]
  have hqt1 : r1.trade.quantity = o.quantity := by rw [htr1]
  have hfind1 : getUserHolding db r1.trade.userId r1.trade.symbol = some h := by
    rw [hu1, hs1]
    exact hfind
  obtain ⟨h1, hh1, hq1⟩ := getUserHolding_after_buy db r1.trade h ht1 hfind1
  have hh1' : getUserHolding r1.db o.userId o.symbol = some h1 := by
    rw [getUserHolding_congr r1.db (update_portfolio_after_trade db r1.trade).1
      o.userId o.symbol hport1]
    rw [hu1, hs1] at hh1
    exact hh1
  have ht2 : r2.trade.tradeType = OrderType.BUY := by rw [htr2]; exact hbuy
  have hu2 : r2.trade.userId = o.userId := by rw [htr2]
  have hs2 : r2.trade.symbol = o.symbol := by rw [htr2]
  have hqt2 : r2.trade.quantity = o.quantity := by rw [htr2]
  have hfind2 : getUserHolding r1.db r2.trade.userId r2.trade.symbol = some h1 := by
    rw [hu2, hs2]
    exact hh1'
  obtain ⟨h2, hh2, hq2⟩ := getUserHolding_after_buy r1.db r2.trade h1 ht2 hfind2
  have hh2' : getUserHolding r2.db o.userId o.symbol = some h2 := by
    rw [getUserHolding_congr r2.db (update_portfolio_after_trade r1.db r2.trade).1
      o.userId o.symbol hport2]
    rw [hu2, hs2] at hh2
    exact hh2
  have hlen1 : r1.db.trades.length = db.trades.length + 1 := by
    rw [htrs1]
    simp
  have hlen2 : r2.db.trades.length = db.trades.length + 2 := by
    rw [htrs2, List.length_append, hlen1]
    simp
  refine ⟨r1, r2, he1, he2, by rw [htr1], by rw [htr2], hlen1, hlen2, hords1,
    h2, hh2', ?_⟩
  rw [hq2, hq1, hqt1, hqt2]
  ring

/-- An already-EXECUTED market order for the C10 witness. -/
def orderC10 : Order :=
  { id := 1, userId := "u1", symbol := "AAPL", orderType := OrderType.BUY,
    orderStyle := OrderStyle.MARKET, quantity := 10, price := none,
    status := OrderStatus.EXECUTED }

/-- The holding the C10 witness starts from. -/
def holdingC10 : Portfolio :=
  { userId := "u1", symbol := "AAPL", quantity := 3, averagePrice := 100,
    totalInvested := 300 }

/-- Store for the C10 witness. -/
def dbC10 : DB :=
  { instruments := [{ symbol := "AAPL", lastTradedPrice := 150, isActive := true }]
    orders := [orderC10], trades := [], portfolio := [holdingC10]
    nextOrderId := 2, nextTradeId := 1 }

/-- Witness for C10: re-executing an already-EXECUTED order succeeds and
doubles the holdings effect. -/
theorem C10_witness :
    ∃ r1 r2 : ExecResult,
      execute_order dbC10 orderC10 = Except.ok r1
      ∧ execute_order r1.db orderC10 = Except.ok r2
      ∧ r1.trade.orderId = orderC10.id
      ∧ r2.trade.orderId = orderC10.id
      ∧ r1.db.trades.length = dbC10.trades.length + 1
      ∧ r2.db.trades.length = dbC10.trades.length + 2
      ∧ (∀ ord, dbC10.orders.find? (fun x => x.id == orderC10.id) = some ord →
           r1.db.orders.find? (fun x => x.id == orderC10.id) =
             some { ord with status := OrderStatus.EXECUTED })
      ∧ ∃ h2, getUserHolding r2.db orderC10.userId orderC10.symbol = some h2
          ∧ h2.quantity = holdingC10.quantity + 2 * orderC10.quantity :=
  C10_execute_ignores_status dbC10 orderC10
    { symbol := "AAPL", lastTradedPrice := 150, isActive := true }
    holdingC10 (by decide) rfl (by decide)

end Trading
